import Mathlib

/-!
Verification of the test-case schema validator (`src/mcp_server/testcase_schema.py`)
and the ADO test-step XML codec (`ADOClient._format_test_steps` in
`src/mcp_server/ado_client.py`).

The Python code is shallowly embedded: strings are Lean `String`s, Python
`str.strip()` is `pyStrip`, `xml.sax.saxutils.escape` is `escape`, and the
pydantic-v1 model validation performed by `TestCase(**data)` /
`TestCaseBatch(**data)` is spelled out field by field, reproducing pydantic's
behaviour: fields are validated in declaration order, errors are collected
across fields (no short-circuit between fields), built-in constraints
(`min_length`, `max_length`, `min_items`, `ge`, `le`) run on the raw value
before the class-level `@validator` functions, and a field's post-validators
are skipped when the field already has errors.
-/

namespace TestcaseSchema

/-- Whitespace characters stripped by Python `str.strip()` (ASCII subset). -/
def isPySpace (c : Char) : Bool :=
  c = ' ' || c = '\t' || c = '\n' || c = '\r' || c = '\x0b' || c = '\x0c'

/-- Remove leading and trailing whitespace from a character list. -/
def stripChars (l : List Char) : List Char :=
  List.rdropWhile isPySpace (List.dropWhile isPySpace l)

/-- Python `str.strip()`. -/
def pyStrip (s : String) : String :=
  ⟨stripChars s.data⟩

/-- Character-level XML escaping as done by `xml.sax.saxutils.escape`:
`&` becomes `&amp;`, `<` becomes `&lt;`, `>` becomes `&gt;`. -/
def escapeChar (c : Char) : List Char :=
  if c = '&' then "&amp;".data
  else if c = '<' then "&lt;".data
  else if c = '>' then "&gt;".data
  else [c]

/-- XML-escape every character of a list. -/
def escapeList : List Char → List Char
  | [] => []
  | c :: rest => escapeChar c ++ escapeList rest

/-- `xml.sax.saxutils.escape` on strings. -/
def escape (s : String) : String :=
  ⟨escapeList s.data⟩

/-- Input to `_format_test_steps`: one step dictionary, restricted to the
string-valued `action` / `expected` entries the claims quantify over; a
missing key is `none` (the Python code reads them with `step.get(key, "")`). -/
structure StepInput where
  action : Option String
  expected : Option String
deriving Repr, DecidableEq

/-- One `<step>` element as built in the loop body of `_format_test_steps`:
action and expected are read with default `""`, stripped, escaped; the type
attribute is `ValidateStep` when the escaped expected text is non-empty and
`ActionStep` otherwise. -/
def formatStep (i : Nat) (s : StepInput) : String :=
  let action := escape (pyStrip (s.action.getD ""))
  let expected := escape (pyStrip (s.expected.getD ""))
  let stepType := if expected = "" then "ActionStep" else "ValidateStep"
  "<step id=\"" ++ toString i ++ "\" type=\"" ++ stepType ++
    "\"><parameterizedString isformatted=\"true\">" ++ action ++
    "</parameterizedString><parameterizedString isformatted=\"true\">" ++ expected ++
    "</parameterizedString><description/></step>"

/-- The `for i, step in enumerate(steps, 1)` loop of `_format_test_steps`,
concatenating one `<step>` element per input step. -/
def formatStepsAux : Nat → List StepInput → String
  | _, [] => ""
  | i, s :: rest => formatStep i s ++ formatStepsAux (i + 1) rest

/-- `ADOClient._format_test_steps`: empty input gives the empty string;
otherwise a `<steps id="0" last="N">` envelope around the numbered steps. -/
def formatTestSteps (steps : List StepInput) : String :=
  if steps.isEmpty then ""
  else
    "<steps id=\"0\" last=\"" ++ toString steps.length ++ "\">" ++
      formatStepsAux 1 steps ++ "</steps>"

/-- Specification-side description of one child element (written from the
spec's words, to be compared with `formatStep`): child number `n` carries the
escaped trimmed action and expected texts, an empty description placeholder,
and a type discriminator that is `ValidateStep` exactly when the step's
expected text is non-empty after trimming. -/
def specChild (n : Nat) (s : StepInput) : String :=
  "<step id=\"" ++ toString n ++ "\" type=\"" ++
    (if pyStrip (s.expected.getD "") = "" then "ActionStep" else "ValidateStep") ++
    "\"><parameterizedString isformatted=\"true\">" ++ escape (pyStrip (s.action.getD "")) ++
    "</parameterizedString><parameterizedString isformatted=\"true\">" ++
    escape (pyStrip (s.expected.getD "")) ++
    "</parameterizedString><description/></step>"

/-- Specification-side description of the whole encoding (written from the
spec's words): empty input encodes to the empty string; a non-empty list of
`N` steps encodes to a single root element whose identifier attribute is `0`
and whose total-count attribute is `N`, containing exactly `N` child elements
numbered `1 .. N` in input order. -/
def specEncode (steps : List StepInput) : String :=
  if steps = [] then ""
  else
    "<steps id=\"0\" last=\"" ++ toString steps.length ++ "\">" ++
      (((List.range steps.length).map
        (fun k => specChild (k + 1) (steps.getD k ⟨Option.none, Option.none⟩))).foldr
          (· ++ ·) "") ++ "</steps>"

/-- Check whether `t` occurs as a contiguous sublist of `l`. -/
def hasInfix (t : List Char) : List Char → Bool
  | [] => t.isEmpty
  | c :: rest => t.isPrefixOf (c :: rest) || hasInfix t rest

/-- Substring containment on strings. -/
def containsSub (s sub : String) : Bool :=
  hasInfix sub.data s.data

/-- A character list is "entity clean" when it holds no literal `<` or `>`
and every `&` starts one of the entities `&amp;`, `&lt;`, `&gt;`. -/
def entityClean : List Char → Bool
  | [] => true
  | c :: rest =>
    if c = '<' || c = '>' then false
    else if c = '&' then
      ("amp;".data.isPrefixOf rest || "lt;".data.isPrefixOf rest ||
        "gt;".data.isPrefixOf rest) && entityClean rest
    else entityClean rest

/-- JSON-like value grammar for the `Dict[str, Any]` inputs of the validator
(the claims quantify over mappings whose leaves are strings, integers, lists,
nested mappings, or `None`). -/
inductive Val where
  | str (s : String)
  | int (n : Int)
  | list (l : List Val)
  | dict (d : List (String × Val))
  | none

/-- Look a key up in a dictionary value; `none` on non-dictionaries. -/
def dictLookup (v : Val) (k : String) : Option Val :=
  match v with
  | .dict d => d.lookup k
  | _ => Option.none

/-- One entry of pydantic's `ValidationError.errors()`: the location path
(field names and item indices, indices rendered as decimal strings) and the
message. -/
structure FieldError where
  loc : List String
  msg : String
deriving Repr, DecidableEq

/-- The error formatting in `validate_single_testcase` /
`validate_testcase_batch`: `" -> ".join(...)` over the location, wrapped as
`Field '<path>': <message>`. -/
def formatError (e : FieldError) : String :=
  "Field '" ++ String.intercalate " -> " e.loc ++ "': " ++ e.msg

/-- Prepend an outer location (e.g. `test_cases -> 3`) to a nested error. -/
def prefixLoc (pre : List String) (e : FieldError) : FieldError :=
  ⟨pre ++ e.loc, e.msg⟩

/-- Validated `TestStep` model: trimmed non-empty action and expected. -/
structure TestStep where
  action : String
  expected : String
deriving Repr, DecidableEq

/-- Validated `TestCase` model. `priority` is `Optional[int]` in the source,
so an explicit `None` is stored as `Option.none`; an absent field defaults
to `2`. -/
structure TestCase where
  title : String
  description : String
  steps : List TestStep
  priority : Option Int
deriving Repr, DecidableEq

/-- Validated `TestCaseBatch` model. `metadata` is `Optional[Dict[str, Any]]`
with an empty-dict default, so an explicit `None` is stored as `Option.none`. -/
structure TestCaseBatch where
  test_cases : List TestCase
  user_story_id : Int
  metadata : Option (List (String × Val))

/-- The payload stored in `ValidationResult.validated_data`. -/
inductive ValidatedData where
  | case (tc : TestCase)
  | batch (b : TestCaseBatch)

/-- The `ValidationResult` pydantic model. -/
structure ValidationResult where
  is_valid : Bool
  errors : List String
  warnings : List String
  validated_data : Option ValidatedData

/-- Errors of an intermediate field result (`[]` for a successful field). -/
def errsOf {α : Type} : Except (List FieldError) α → List FieldError
  | .ok _ => []
  | .error es => es

/-- Digit-string parser used to model Python `int(str)`. -/
def digitsToNat? (l : List Char) : Option Nat :=
  if l ≠ [] && l.all Char.isDigit then
    some (l.foldl (fun acc c => acc * 10 + (c.toNat - '0'.toNat)) 0)
  else Option.none

/-- Python `int(s)` on a string: surrounding whitespace is ignored, an
optional sign precedes the digits. -/
def pyParseInt (s : String) : Option Int :=
  match stripChars s.data with
  | '-' :: ds => (digitsToNat? ds).map (fun n => -(n : Int))
  | '+' :: ds => (digitsToNat? ds).map (fun n => (n : Int))
  | ds => (digitsToNat? ds).map (fun n => (n : Int))

/-- The class-level `validate_not_empty` validator shared by `title`,
`description`, `action` and `expected`: rejects empty or whitespace-only
values and returns the stripped value. Runs after the built-in length
constraints, so it sees the raw (untrimmed) string. -/
def checkNotEmpty (loc : List String) (s : String) : Except (List FieldError) String :=
  if s = "" || pyStrip s = "" then
    .error [⟨loc, "Field cannot be empty or whitespace only"⟩]
  else .ok (pyStrip s)

/-- Pydantic length constraints (`min_length=1`, optional `max_length`) on the
raw string, then the class validator. -/
def validateStrValue (loc : List String) (maxLen : Option Nat) (s : String) :
    Except (List FieldError) String :=
  if s.length < 1 then
    .error [⟨loc, "ensure this value has at least 1 characters"⟩]
  else
    match maxLen with
    | some m =>
      if s.length > m then
        .error [⟨loc, "ensure this value has at most " ++ toString m ++ " characters"⟩]
      else checkNotEmpty loc s
    | Option.none => checkNotEmpty loc s

/-- A required pydantic `str` field with the shared emptiness validator:
missing key, explicit `None`, and non-string values produce the pydantic v1
error messages; numbers are coerced to their decimal representation as
pydantic v1's lenient `str` validator does. -/
def validateStrField (loc : List String) (maxLen : Option Nat) (v : Option Val) :
    Except (List FieldError) String :=
  match v with
  | Option.none => .error [⟨loc, "field required"⟩]
  | some Val.none => .error [⟨loc, "none is not an allowed value"⟩]
  | some (.str s) => validateStrValue loc maxLen s
  | some (.int n) => validateStrValue loc maxLen (toString n)
  | some (.list _) => .error [⟨loc, "str type expected"⟩]
  | some (.dict _) => .error [⟨loc, "str type expected"⟩]

/-- Pydantic `int` coercion: integers pass through, numeric strings are
parsed, everything else is rejected. -/
def parseIntVal (loc : List String) (v : Val) : Except (List FieldError) Int :=
  match v with
  | .int n => .ok n
  | .str s =>
    match pyParseInt s with
    | some n => .ok n
    | Option.none => .error [⟨loc, "value is not a valid integer"⟩]
  | _ => .error [⟨loc, "value is not a valid integer"⟩]

/-- The `ge=1` / `le=4` bound checks of the `priority` field. -/
def checkPriorityBounds (n : Int) : Except (List FieldError) (Option Int) :=
  if n < 1 then .error [⟨["priority"], "ensure this value is greater than or equal to 1"⟩]
  else if n > 4 then .error [⟨["priority"], "ensure this value is less than or equal to 4"⟩]
  else .ok (some n)

/-- The `priority` field: `Optional[int] = Field(2, ge=1, le=4)`. Absent
means default `2` (defaults are not re-validated); an explicit `None` is
allowed and stored; present values must be integers in `[1, 4]`. -/
def validatePriorityField (v : Option Val) : Except (List FieldError) (Option Int) :=
  match v with
  | Option.none => .ok (some 2)
  | some Val.none => .ok Option.none
  | some w => (parseIntVal ["priority"] w).bind checkPriorityBounds

/-- Collect the results of two independently validated fields: succeed only
when both succeed, otherwise gather both fields' errors in order — pydantic
does not stop at the first failing field. -/
def combine2 {α β γ : Type} (f : α → β → γ)
    (ra : Except (List FieldError) α) (rb : Except (List FieldError) β) :
    Except (List FieldError) γ :=
  match ra, rb with
  | .ok a, .ok b => .ok (f a b)
  | _, _ => .error (errsOf ra ++ errsOf rb)

/-- Collect the results of three independently validated fields. -/
def combine3 {α β γ δ : Type} (f : α → β → γ → δ)
    (ra : Except (List FieldError) α) (rb : Except (List FieldError) β)
    (rc : Except (List FieldError) γ) : Except (List FieldError) δ :=
  match ra, rb, rc with
  | .ok a, .ok b, .ok c => .ok (f a b c)
  | _, _, _ => .error (errsOf ra ++ errsOf rb ++ errsOf rc)

/-- Collect the results of four independently validated fields. -/
def combine4 {α β γ δ ε : Type} (f : α → β → γ → δ → ε)
    (ra : Except (List FieldError) α) (rb : Except (List FieldError) β)
    (rc : Except (List FieldError) γ) (rd : Except (List FieldError) δ) :
    Except (List FieldError) ε :=
  match ra, rb, rc, rd with
  | .ok a, .ok b, .ok c, .ok d => .ok (f a b c d)
  | _, _, _, _ => .error (errsOf ra ++ errsOf rb ++ errsOf rc ++ errsOf rd)

/-- Validation of one element of the `steps` list: the element must be a
mapping, whose `action` and `expected` entries go through the string-field
validation of `TestStep`. Error locations are relative to the element. -/
def validateStep (v : Val) : Except (List FieldError) TestStep :=
  match v with
  | Val.none => .error [⟨[], "none is not an allowed value"⟩]
  | .dict d =>
    combine2 TestStep.mk
      (validateStrField ["action"] Option.none (d.lookup "action"))
      (validateStrField ["expected"] Option.none (d.lookup "expected"))
  | _ => .error [⟨[], "value is not a valid dict"⟩]

/-- Validate the elements of the `steps` list in order, collecting every
element's errors (pydantic does not stop at the first bad element), with
locations `steps -> i -> ...`. -/
def validateStepItems (i : Nat) : List Val → Except (List FieldError) (List TestStep)
  | [] => .ok []
  | v :: rest =>
    combine2 List.cons
      ((validateStep v).mapError (List.map (prefixLoc ["steps", toString i])))
      (validateStepItems (i + 1) rest)

/-- The `steps` field of `TestCase`: required, a list, `min_items=1`, then
element validation. The class-level `validate_steps_not_empty` validator runs
only when the field has no errors, and then the list is already non-empty, so
it never adds anything. -/
def validateStepsField (v : Option Val) : Except (List FieldError) (List TestStep) :=
  match v with
  | Option.none => .error [⟨["steps"], "field required"⟩]
  | some Val.none => .error [⟨["steps"], "none is not an allowed value"⟩]
  | some (.list items) =>
    if items.length < 1 then
      .error [⟨["steps"], "ensure this value has at least 1 items"⟩]
    else validateStepItems 0 items
  | some _ => .error [⟨["steps"], "value is not a valid list"⟩]

/-- `TestCase(**data)`: validate the four fields in declaration order and
collect every field's errors; succeed only when all four succeed. Error
locations are relative to the test case. -/
def validateTestCaseCore (data : List (String × Val)) :
    Except (List FieldError) TestCase :=
  combine4 TestCase.mk
    (validateStrField ["title"] (some 255) (data.lookup "title"))
    (validateStrField ["description"] Option.none (data.lookup "description"))
    (validateStepsField (data.lookup "steps"))
    (validatePriorityField (data.lookup "priority"))

/-- Validation of one element of the `test_cases` list: the element must be a
mapping and validate as a `TestCase`, with locations `test_cases -> i -> ...`. -/
def validateCaseItem (i : Nat) (v : Val) : Except (List FieldError) TestCase :=
  match v with
  | Val.none => .error [⟨["test_cases", toString i], "none is not an allowed value"⟩]
  | .dict d => (validateTestCaseCore d).mapError (List.map (prefixLoc ["test_cases", toString i]))
  | _ => .error [⟨["test_cases", toString i], "value is not a valid dict"⟩]

/-- Validate the elements of the `test_cases` list in order, collecting every
element's errors. -/
def validateCaseItems (i : Nat) : List Val → Except (List FieldError) (List TestCase)
  | [] => .ok []
  | v :: rest =>
    combine2 List.cons (validateCaseItem i v) (validateCaseItems (i + 1) rest)

/-- The `test_cases` field of `TestCaseBatch`: required, a list,
`min_items=1`, element validation, and then — only when every element
validated — the class-level `validate_unique_titles` validator, which
rejects the whole field when two titles coincide (the code compares
`len(titles)` with `len(set(titles))`). -/
def validateTestCasesField (v : Option Val) : Except (List FieldError) (List TestCase) :=
  match v with
  | Option.none => .error [⟨["test_cases"], "field required"⟩]
  | some Val.none => .error [⟨["test_cases"], "none is not an allowed value"⟩]
  | some (.list items) =>
    if items.length < 1 then
      .error [⟨["test_cases"], "ensure this value has at least 1 items"⟩]
    else
      (validateCaseItems 0 items).bind (fun tcs =>
        if (tcs.map TestCase.title).dedup.length = (tcs.map TestCase.title).length then .ok tcs
        else .error [⟨["test_cases"], "Test case titles must be unique within a batch"⟩])
  | some _ => .error [⟨["test_cases"], "value is not a valid list"⟩]

/-- The required `user_story_id: int` field of `TestCaseBatch`. -/
def validateUserStoryId (v : Option Val) : Except (List FieldError) Int :=
  match v with
  | Option.none => .error [⟨["user_story_id"], "field required"⟩]
  | some Val.none => .error [⟨["user_story_id"], "none is not an allowed value"⟩]
  | some w => parseIntVal ["user_story_id"] w

/-- The `metadata: Optional[Dict[str, Any]]` field of `TestCaseBatch` with
its empty-dict default. -/
def validateMetadataField (v : Option Val) : Except (List FieldError) (Option (List (String × Val))) :=
  match v with
  | Option.none => .ok (some [])
  | some Val.none => .ok Option.none
  | some (.dict d) => .ok (some d)
  | some _ => .error [⟨["metadata"], "value is not a valid dict"⟩]

/-- `TestCaseBatch(**data)`: validate the three fields in declaration order
and collect every field's errors. -/
def validateBatchCore (data : List (String × Val)) :
    Except (List FieldError) TestCaseBatch :=
  combine3 TestCaseBatch.mk
    (validateTestCasesField (data.lookup "test_cases"))
    (validateUserStoryId (data.lookup "user_story_id"))
    (validateMetadataField (data.lookup "metadata"))

/-- `TestCaseValidator.validate_single_testcase`: build a `TestCase` from the
data; on success return a valid result carrying the normalized model, on a
validation error return an invalid result with one formatted string per
error. -/
def validate_single_testcase (data : List (String × Val)) : ValidationResult :=
  match validateTestCaseCore data with
  | .ok tc => ⟨true, [], [], some (.case tc)⟩
  | .error es => ⟨false, es.map formatError, [], Option.none⟩

/-- `TestCaseValidator.validate_testcase_batch`. -/
def validate_testcase_batch (data : List (String × Val)) : ValidationResult :=
  match validateBatchCore data with
  | .ok b => ⟨true, [], [], some (.batch b)⟩
  | .error es => ⟨false, es.map formatError, [], Option.none⟩

/-- The `while attempt < self.max_retries` loop of `validate_with_retry`,
with the remaining fuel, the number of validator invocations so far, and the
last failing result. An unrecognized validation type returns immediately
with the diagnostic result; an exhausted loop returns the last result (or
the fallback message when no attempt ever ran). -/
def retryLoop (data : List (String × Val)) (vt : String) :
    Nat → Nat → Option ValidationResult → Nat × ValidationResult
  | 0, attempts, last =>
    (attempts, last.getD ⟨false, ["Validation failed after maximum retries"], [], Option.none⟩)
  | fuel + 1, attempts, last =>
    if vt = "single" then
      let r := validate_single_testcase data
      if r.is_valid then (attempts + 1, r)
      else retryLoop data vt fuel (attempts + 1) (some r)
    else if vt = "batch" then
      let r := validate_testcase_batch data
      if r.is_valid then (attempts + 1, r)
      else retryLoop data vt fuel (attempts + 1) (some r)
    else (attempts, ⟨false, ["Unknown validation type: " ++ vt], [], Option.none⟩)

/-- `TestCaseValidator.validate_with_retry`, instrumented with the number of
validator invocations it performs (first component). -/
def validate_with_retry (maxRetries : Nat) (data : List (String × Val)) (vt : String) :
    Nat × ValidationResult :=
  retryLoop data vt maxRetries 0 Option.none

/-- Serialization of a validated `TestCase` back to an input mapping
(`validated_testcase.dict()`), used to state idempotence. -/
def toData (tc : TestCase) : List (String × Val) :=
  [("title", .str tc.title),
   ("description", .str tc.description),
   ("steps", .list (tc.steps.map (fun s => .dict [("action", .str s.action), ("expected", .str s.expected)]))),
   ("priority", match tc.priority with | some n => .int n | Option.none => Val.none)]

/-- A raw step mapping that satisfies the single-case validator's per-step
requirements: string `action` and `expected`, both non-empty after trimming. -/
def stepOk (v : Val) : Prop :=
  ∃ a e, dictLookup v "action" = some (.str a) ∧ dictLookup v "expected" = some (.str e) ∧
    pyStrip a ≠ "" ∧ pyStrip e ≠ ""

/-- The normalized step produced from a raw step mapping. -/
def stepNorm (v : Val) : TestStep :=
  match dictLookup v "action", dictLookup v "expected" with
  | some (.str a), some (.str e) => ⟨pyStrip a, pyStrip e⟩
  | _, _ => ⟨"", ""⟩

/-! ### String and stripping lemmas -/

theorem string_eq_of_data_eq {s t : String} (h : s.data = t.data) : s = t := by
  cases s; cases t; exact congrArg String.mk h

theorem string_data_mk (l : List Char) : (⟨l⟩ : String).data = l := rfl

theorem string_length_data (s : String) : s.length = s.data.length := rfl

theorem stripChars_idem (l : List Char) : stripChars (stripChars l) = stripChars l := by
  unfold stripChars
  have hdw : List.dropWhile isPySpace (List.rdropWhile isPySpace (List.dropWhile isPySpace l)) =
      List.rdropWhile isPySpace (List.dropWhile isPySpace l) := by
    cases hm2 : List.rdropWhile isPySpace (List.dropWhile isPySpace l) with
    | nil => simp
    | cons a t =>
      have hpre : (a :: t) <+: List.dropWhile isPySpace l :=
        hm2 ▸ List.rdropWhile_prefix isPySpace (List.dropWhile isPySpace l)
      obtain ⟨r, hr⟩ := hpre
      have hne : List.dropWhile isPySpace l ≠ [] := by rw [← hr]; simp
      have hcons : List.dropWhile isPySpace l = a :: (t ++ r) := by rw [← hr]; simp
      have hhead := List.head_dropWhile_not isPySpace l hne
      simp only [hcons, List.head_cons] at hhead
      rw [List.dropWhile_cons_of_neg (by simp [hhead])]
  rw [hdw, List.rdropWhile_idempotent]

theorem pyStrip_idem (s : String) : pyStrip (pyStrip s) = pyStrip s := by
  unfold pyStrip
  exact string_eq_of_data_eq (by simp [string_data_mk, stripChars_idem])

theorem stripChars_length_le (l : List Char) : (stripChars l).length ≤ l.length := by
  unfold stripChars
  calc (List.rdropWhile isPySpace (List.dropWhile isPySpace l)).length
      ≤ (List.dropWhile isPySpace l).length :=
        (List.rdropWhile_prefix _ _).length_le
    _ ≤ l.length := (List.dropWhile_suffix _).length_le

theorem pyStrip_length_le (s : String) : (pyStrip s).length ≤ s.length := by
  rw [string_length_data, string_length_data]
  exact stripChars_length_le s.data

theorem pyStrip_empty : pyStrip "" = "" := rfl

theorem ne_empty_of_pyStrip_ne {s : String} (h : pyStrip s ≠ "") : s ≠ "" := by
  intro he; exact h (by rw [he]; rfl)

theorem length_pos_of_ne_empty {s : String} (h : s ≠ "") : 1 ≤ s.length := by
  rw [string_length_data]
  cases s with
  | mk data =>
    cases data with
    | nil => exact absurd rfl h
    | cons c t => simp

/-! ### Escaping lemmas -/

theorem escapeChar_ne_nil (c : Char) : escapeChar c ≠ [] := by
  unfold escapeChar
  split
  · decide
  · split
    · decide
    · split
      · decide
      · simp

theorem escapeList_eq_nil_iff (l : List Char) : escapeList l = [] ↔ l = [] := by
  cases l with
  | nil => exact ⟨fun _ => rfl, fun _ => rfl⟩
  | cons c t =>
    rw [show escapeList (c :: t) = escapeChar c ++ escapeList t from rfl]
    simp [List.append_eq_nil, escapeChar_ne_nil c]

theorem escape_eq_empty_iff (s : String) : escape s = "" ↔ s = "" := by
  constructor
  · intro h
    have hd : escapeList s.data = [] := by
      have := congrArg String.data h
      simpa [escape, string_data_mk] using this
    have : s.data = [] := (escapeList_eq_nil_iff _).1 hd
    exact string_eq_of_data_eq (by simpa using this)
  · intro h; rw [h]; rfl

theorem entityClean_cons_plain {c : Char} {m : List Char}
    (h1 : ¬ c = '<') (h2 : ¬ c = '>') (h3 : ¬ c = '&')
    (hm : entityClean m = true) : entityClean (c :: m) = true := by
  simp [entityClean, h1, h2, h3, hm]

theorem entityClean_escapeChar_append (c : Char) (m : List Char)
    (hm : entityClean m = true) : entityClean (escapeChar c ++ m) = true := by
  by_cases h1 : c = '&'
  · subst h1
    show entityClean ('&' :: 'a' :: 'm' :: 'p' :: ';' :: m) = true
    simp only [entityClean, List.isPrefixOf]
    simp [hm]
  · by_cases h2 : c = '<'
    · subst h2
      show entityClean ('&' :: 'l' :: 't' :: ';' :: m) = true
      simp only [entityClean, List.isPrefixOf]
      simp [hm]
    · by_cases h3 : c = '>'
      · subst h3
        show entityClean ('&' :: 'g' :: 't' :: ';' :: m) = true
        simp only [entityClean, List.isPrefixOf]
        simp [hm]
      · have : escapeChar c = [c] := by simp [escapeChar, h1, h2, h3]
        rw [this]
        exact entityClean_cons_plain h2 h3 h1 hm

theorem entityClean_escapeList (l : List Char) : entityClean (escapeList l) = true := by
  induction l with
  | nil => rfl
  | cons c t ih => exact entityClean_escapeChar_append c _ ih

theorem escape_empty : escape "" = "" := rfl

/-! ### Step-codec lemmas -/

theorem formatStep_eq_specChild (n : Nat) (s : StepInput) :
    formatStep n s = specChild n s := by
  unfold formatStep specChild
  by_cases h : pyStrip (s.expected.getD "") = ""
  · simp [h, escape_empty]
  · have h2 : escape (pyStrip (s.expected.getD "")) ≠ "" :=
      fun hc => h ((escape_eq_empty_iff _).1 hc)
    simp [h, h2]

theorem formatStepsAux_eq (steps : List StepInput) : ∀ n, formatStepsAux n steps =
    ((List.range steps.length).map
      (fun k => specChild (n + k) (steps.getD k ⟨Option.none, Option.none⟩))).foldr (· ++ ·) "" := by
  induction steps with
  | nil => intro n; rfl
  | cons s rest ih =>
    intro n
    rw [show formatStepsAux n (s :: rest) = formatStep n s ++ formatStepsAux (n + 1) rest from rfl]
    rw [formatStep_eq_specChild, ih (n + 1)]
    rw [show (s :: rest).length = rest.length + 1 from rfl, List.range_succ_eq_map]
    rw [List.map_cons, List.map_map, List.foldr_cons]
    congr 1
    apply congrArg (List.foldr (· ++ ·) "")
    apply List.map_congr_left
    intro k _
    show specChild (n + 1 + k) _ = specChild (n + (k + 1)) _
    congr 1
    omega

theorem formatTestSteps_ne_empty (s : StepInput) (rest : List StepInput) :
    formatTestSteps (s :: rest) ≠ "" := by
  unfold formatTestSteps
  rw [if_neg (by simp)]
  intro hc
  have := congrArg String.data hc
  simp [String.data_append] at this

/-! ### Claim theorems for the step codec -/

/-- C2: `_format_test_steps` of an empty step list is the empty string (not an
empty envelope); of a non-empty list of `N` steps it is exactly one root
element with identifier attribute `0` and total-count attribute `N`,
containing exactly `N` child step elements numbered `1 .. N` in input order,
each carrying the escaped action and expected texts, an empty description
placeholder, and a `ValidateStep` / `ActionStep` type discriminator decided
by whether the step's expected text is non-empty after trimming — stated as
equality with the specification-side encoder `specEncode`. -/
theorem format_test_steps_matches_spec :
    formatTestSteps [] = "" ∧ ∀ steps, formatTestSteps steps = specEncode steps := by
  refine ⟨rfl, fun steps => ?_⟩
  cases steps with
  | nil => rfl
  | cons s rest =>
    unfold formatTestSteps specEncode
    rw [if_neg (by simp), if_neg (by simp)]
    congr 1
    congr 1
    rw [formatStepsAux_eq]
    apply congrArg (List.foldr (· ++ ·) "")
    apply List.map_congr_left
    intro k _
    rw [Nat.add_comm]

set_option maxRecDepth 100000 in
/-- C5: escaped text payloads contain no literal unescaped `<`, `>` or `&`
(`&` appears only at the start of `&amp;`, `&lt;` or `&gt;`), and the
concrete single-step encoding of action `Click <Login>` / expected
`Dashboard & Welcome shown` contains the escaped substrings, step `id="1"`,
root `last="1"`, and no CDATA wrapping. -/
theorem escape_injection_safety :
    (∀ s : String, entityClean (escape s).data = true) ∧
    containsSub (formatTestSteps [⟨some "Click <Login>", some "Dashboard & Welcome shown"⟩])
      "&lt;Login&gt;" = true ∧
    containsSub (formatTestSteps [⟨some "Click <Login>", some "Dashboard & Welcome shown"⟩])
      "Dashboard &amp; Welcome shown" = true ∧
    containsSub (formatTestSteps [⟨some "Click <Login>", some "Dashboard & Welcome shown"⟩])
      "<step id=\"1\"" = true ∧
    containsSub (formatTestSteps [⟨some "Click <Login>", some "Dashboard & Welcome shown"⟩])
      "last=\"1\"" = true ∧
    containsSub (formatTestSteps [⟨some "Click <Login>", some "Dashboard & Welcome shown"⟩])
      "CDATA" = false := by
  exact ⟨fun s => entityClean_escapeList s.data, rfl, rfl, rfl, rfl, rfl⟩

/-- C10: `_format_test_steps` never rejects a step — a missing `action` or
`expected` key behaves as the empty string, both values are re-trimmed inside
the codec before escaping, a step whose expected trims to empty is still
emitted as an `ActionStep` child with an empty expected payload, and the
output is empty exactly for the empty step list. -/
theorem format_steps_total_and_lenient (steps : List StepInput) (i : Nat) (a e : Option String) :
    formatStep i ⟨Option.none, e⟩ = formatStep i ⟨some "", e⟩ ∧
    formatStep i ⟨a, Option.none⟩ = formatStep i ⟨a, some ""⟩ ∧
    formatStep i ⟨a, e⟩ = formatStep i ⟨some (pyStrip (a.getD "")), some (pyStrip (e.getD ""))⟩ ∧
    (pyStrip (e.getD "") = "" → formatStep i ⟨a, e⟩ = specChild i ⟨a, some ""⟩) ∧
    containsSub (formatTestSteps [⟨some "log out", some "   "⟩]) "type=\"ActionStep\"" = true ∧
    (formatTestSteps steps = "" ↔ steps = []) := by
  refine ⟨rfl, rfl, ?_, ?_, rfl, ?_⟩
  · simp [formatStep, pyStrip_idem]
  · intro h
    rw [formatStep_eq_specChild]
    unfold specChild
    rw [h]
    rfl
  · cases steps with
    | nil => simp [formatTestSteps]
    | cons s rest =>
      refine ⟨fun hc => absurd hc (formatTestSteps_ne_empty s rest), fun hc => by cases hc⟩

/-! ### Validator field lemmas -/

theorem checkNotEmpty_ok {loc : List String} {s t : String}
    (h : checkNotEmpty loc s = .ok t) : t = pyStrip s ∧ pyStrip s ≠ "" := by
  unfold checkNotEmpty at h
  split at h
  · simp at h
  · rename_i hcond
    simp at hcond h
    exact ⟨h.symm, hcond.2⟩

theorem checkNotEmpty_eq_ok {loc : List String} {s : String} (h : pyStrip s ≠ "") :
    checkNotEmpty loc s = .ok (pyStrip s) := by
  unfold checkNotEmpty
  rw [if_neg (by simp [ne_empty_of_pyStrip_ne h, h])]

theorem checkNotEmpty_error_ne {loc : List String} {s : String} {es : List FieldError}
    (h : checkNotEmpty loc s = .error es) : es ≠ [] := by
  unfold checkNotEmpty at h
  split at h
  · intro hc
    rw [hc] at h
    simp at h
  · simp at h

theorem validateStrValue_none_eq (loc : List String) (s : String) :
    validateStrValue loc Option.none s =
      if s.length < 1 then
        Except.error [⟨loc, "ensure this value has at least 1 characters"⟩]
      else checkNotEmpty loc s := rfl

theorem validateStrValue_some_eq (loc : List String) (mm : Nat) (s : String) :
    validateStrValue loc (some mm) s =
      if s.length < 1 then
        Except.error [⟨loc, "ensure this value has at least 1 characters"⟩]
      else if s.length > mm then
        Except.error [⟨loc, "ensure this value has at most " ++ toString mm ++ " characters"⟩]
      else checkNotEmpty loc s := rfl

theorem validateStrValue_ok_none {loc : List String} {s t : String}
    (h : validateStrValue loc Option.none s = .ok t) :
    t = pyStrip s ∧ pyStrip s ≠ "" := by
  rw [validateStrValue_none_eq] at h
  split at h
  · simp at h
  · exact checkNotEmpty_ok h

theorem validateStrValue_ok_some {loc : List String} {mm : Nat} {s t : String}
    (h : validateStrValue loc (some mm) s = .ok t) :
    t = pyStrip s ∧ pyStrip s ≠ "" ∧ s.length ≤ mm := by
  rw [validateStrValue_some_eq] at h
  split at h
  · simp at h
  · split at h
    · simp at h
    · rename_i hmax
      obtain ⟨h1, h2⟩ := checkNotEmpty_ok h
      exact ⟨h1, h2, by omega⟩

theorem validateStrValue_eq_ok_none {loc : List String} {s : String}
    (h1 : pyStrip s ≠ "") :
    validateStrValue loc Option.none s = .ok (pyStrip s) := by
  rw [validateStrValue_none_eq]
  rw [if_neg (by have := length_pos_of_ne_empty (ne_empty_of_pyStrip_ne h1); omega)]
  exact checkNotEmpty_eq_ok h1

theorem validateStrValue_eq_ok_some {loc : List String} {mm : Nat} {s : String}
    (h1 : pyStrip s ≠ "") (h2 : s.length ≤ mm) :
    validateStrValue loc (some mm) s = .ok (pyStrip s) := by
  rw [validateStrValue_some_eq]
  rw [if_neg (by have := length_pos_of_ne_empty (ne_empty_of_pyStrip_ne h1); omega)]
  rw [if_neg (by omega)]
  exact checkNotEmpty_eq_ok h1

theorem validateStrValue_error_ne_none {loc : List String} {s : String}
    {es : List FieldError} (h : validateStrValue loc Option.none s = .error es) : es ≠ [] := by
  rw [validateStrValue_none_eq] at h
  split at h
  · intro hc; rw [hc] at h; simp at h
  · exact checkNotEmpty_error_ne h

theorem validateStrValue_error_ne_some {loc : List String} {mm : Nat} {s : String}
    {es : List FieldError} (h : validateStrValue loc (some mm) s = .error es) : es ≠ [] := by
  rw [validateStrValue_some_eq] at h
  split at h
  · intro hc; rw [hc] at h; simp at h
  · split at h
    · intro hc; rw [hc] at h; simp at h
    · exact checkNotEmpty_error_ne h

theorem validateStrField_ok_none {loc : List String} {v : Option Val} {t : String}
    (h : validateStrField loc Option.none v = .ok t) :
    t ≠ "" ∧ pyStrip t = t := by
  unfold validateStrField at h
  match v, h with
  | some (.str s), h =>
    obtain ⟨h1, h2⟩ := validateStrValue_ok_none h
    subst h1
    exact ⟨h2, pyStrip_idem s⟩
  | some (.int n), h =>
    obtain ⟨h1, h2⟩ := validateStrValue_ok_none h
    subst h1
    exact ⟨h2, pyStrip_idem _⟩

theorem validateStrField_ok_some {loc : List String} {mm : Nat} {v : Option Val} {t : String}
    (h : validateStrField loc (some mm) v = .ok t) :
    t ≠ "" ∧ pyStrip t = t ∧ t.length ≤ mm := by
  unfold validateStrField at h
  match v, h with
  | some (.str s), h =>
    obtain ⟨h1, h2, h3⟩ := validateStrValue_ok_some h
    subst h1
    exact ⟨h2, pyStrip_idem s, le_trans (pyStrip_length_le s) h3⟩
  | some (.int n), h =>
    obtain ⟨h1, h2, h3⟩ := validateStrValue_ok_some h
    subst h1
    exact ⟨h2, pyStrip_idem _, le_trans (pyStrip_length_le _) h3⟩

theorem validateStrField_str_eq_ok_none {loc : List String} {s : String}
    (h1 : pyStrip s ≠ "") :
    validateStrField loc Option.none (some (.str s)) = .ok (pyStrip s) := by
  unfold validateStrField
  exact validateStrValue_eq_ok_none h1

theorem validateStrField_str_eq_ok_some {loc : List String} {mm : Nat} {s : String}
    (h1 : pyStrip s ≠ "") (h2 : s.length ≤ mm) :
    validateStrField loc (some mm) (some (.str s)) = .ok (pyStrip s) := by
  unfold validateStrField
  exact validateStrValue_eq_ok_some h1 h2

theorem validateStrField_error_ne {loc : List String} {m : Option Nat} {v : Option Val}
    {es : List FieldError} (h : validateStrField loc m v = .error es) : es ≠ [] := by
  unfold validateStrField at h
  match v, h with
  | Option.none, h => intro hc; rw [hc] at h; simp at h
  | some Val.none, h => intro hc; rw [hc] at h; simp at h
  | some (.str s), h =>
    cases m with
    | none => exact validateStrValue_error_ne_none h
    | some mm => exact validateStrValue_error_ne_some h
  | some (.int n), h =>
    cases m with
    | none => exact validateStrValue_error_ne_none h
    | some mm => exact validateStrValue_error_ne_some h
  | some (.list l), h => intro hc; rw [hc] at h; simp at h
  | some (.dict d), h => intro hc; rw [hc] at h; simp at h

theorem parseIntVal_str_eq (loc : List String) (s : String) :
    parseIntVal loc (.str s) =
      match pyParseInt s with
      | some n => .ok n
      | Option.none => .error [⟨loc, "value is not a valid integer"⟩] := rfl

theorem parseIntVal_error_ne {loc : List String} {w : Val} {es : List FieldError}
    (h : parseIntVal loc w = .error es) : es ≠ [] := by
  match w, h with
  | .int n, h => simp [parseIntVal] at h
  | Val.none, h => intro hc; rw [hc] at h; simp [parseIntVal] at h
  | .list l, h => intro hc; rw [hc] at h; simp [parseIntVal] at h
  | .dict d, h => intro hc; rw [hc] at h; simp [parseIntVal] at h
  | .str s, h =>
    rw [parseIntVal_str_eq] at h
    cases hq : pyParseInt s with
    | none => rw [hq] at h; intro hc; rw [hc] at h; simp at h
    | some k => rw [hq] at h; simp at h

theorem validatePriorityField_absent_eq :
    validatePriorityField Option.none = .ok (some 2) := rfl

theorem validatePriorityField_pynone_eq :
    validatePriorityField (some Val.none) = .ok Option.none := rfl

theorem except_bind_ok {ε α β : Type} (a : α) (f : α → Except ε β) :
    (Except.ok a : Except ε α).bind f = f a := rfl

theorem except_bind_error {ε α β : Type} (e : ε) (f : α → Except ε β) :
    (Except.error e : Except ε α).bind f = Except.error e := rfl

theorem validatePriorityField_some_eq (w : Val) (hw : w ≠ Val.none) :
    validatePriorityField (some w) =
      (parseIntVal ["priority"] w).bind checkPriorityBounds := by
  cases w with
  | none => exact absurd rfl hw
  | str s => rfl
  | int n => rfl
  | list l => rfl
  | dict d => rfl

theorem validatePriorityField_go_ok {w : Val} {p : Option Int} (hw : w ≠ Val.none)
    (h : validatePriorityField (some w) = .ok p) :
    ∃ n, p = some n ∧ 1 ≤ n ∧ n ≤ 4 := by
  rw [validatePriorityField_some_eq w hw] at h
  cases hp : parseIntVal ["priority"] w with
  | error es => rw [hp, except_bind_error] at h; simp at h
  | ok n =>
    rw [hp, except_bind_ok] at h
    unfold checkPriorityBounds at h
    split at h
    · simp at h
    · split at h
      · simp at h
      · rename_i hge hle
        exact ⟨n, by simpa using h.symm, by omega, by omega⟩

theorem validatePriorityField_ok {v : Option Val} {p : Option Int}
    (h : validatePriorityField v = .ok p) :
    p = Option.none ∨ ∃ n, p = some n ∧ 1 ≤ n ∧ n ≤ 4 := by
  cases v with
  | none =>
    rw [validatePriorityField_absent_eq] at h
    exact Or.inr ⟨2, by simpa using h.symm, by omega, by omega⟩
  | some w =>
    cases w with
    | none =>
      rw [validatePriorityField_pynone_eq] at h
      exact Or.inl (by simpa using h.symm)
    | str s => exact Or.inr (validatePriorityField_go_ok (fun hc => Val.noConfusion hc) h)
    | int n => exact Or.inr (validatePriorityField_go_ok (fun hc => Val.noConfusion hc) h)
    | list l => exact Or.inr (validatePriorityField_go_ok (fun hc => Val.noConfusion hc) h)
    | dict d => exact Or.inr (validatePriorityField_go_ok (fun hc => Val.noConfusion hc) h)

theorem validatePriorityField_int_eq_ok {n : Int} (h1 : 1 ≤ n) (h2 : n ≤ 4) :
    validatePriorityField (some (.int n)) = .ok (some n) := by
  rw [validatePriorityField_some_eq (Val.int n) (fun hc => Val.noConfusion hc)]
  rw [show parseIntVal ["priority"] (Val.int n) = Except.ok n from rfl, except_bind_ok]
  unfold checkPriorityBounds
  rw [if_neg (by omega), if_neg (by omega)]

theorem validatePriorityField_go_error_ne {w : Val} {es : List FieldError} (hw : w ≠ Val.none)
    (h : validatePriorityField (some w) = .error es) : es ≠ [] := by
  rw [validatePriorityField_some_eq w hw] at h
  cases hp : parseIntVal ["priority"] w with
  | error es2 =>
    rw [hp, except_bind_error] at h
    have h2 : es2 = es := by simpa using h
    subst h2
    exact parseIntVal_error_ne hp
  | ok n =>
    rw [hp, except_bind_ok] at h
    unfold checkPriorityBounds at h
    split at h
    · intro hc; rw [hc] at h; simp at h
    · split at h
      · intro hc; rw [hc] at h; simp at h
      · simp at h

theorem validatePriorityField_error_ne {v : Option Val} {es : List FieldError}
    (h : validatePriorityField v = .error es) : es ≠ [] := by
  cases v with
  | none => rw [validatePriorityField_absent_eq] at h; simp at h
  | some w =>
    cases w with
    | none => rw [validatePriorityField_pynone_eq] at h; simp at h
    | str s => exact validatePriorityField_go_error_ne (fun hc => Val.noConfusion hc) h
    | int n => exact validatePriorityField_go_error_ne (fun hc => Val.noConfusion hc) h
    | list l => exact validatePriorityField_go_error_ne (fun hc => Val.noConfusion hc) h
    | dict d => exact validatePriorityField_go_error_ne (fun hc => Val.noConfusion hc) h

/-! ### Combinator lemmas -/

theorem append2_ne {a b : List FieldError} (h : a ≠ [] ∨ b ≠ []) : a ++ b ≠ [] := by
  intro hc
  rw [List.append_eq_nil] at hc
  rcases h with h | h
  · exact h hc.1
  · exact h hc.2

theorem append3_ne {a b c : List FieldError} (h : a ≠ [] ∨ b ≠ [] ∨ c ≠ []) :
    a ++ b ++ c ≠ [] := by
  intro hc
  simp only [List.append_eq_nil] at hc
  rcases h with h | h | h
  · exact h hc.1.1
  · exact h hc.1.2
  · exact h hc.2

theorem append4_ne {a b c d : List FieldError} (h : a ≠ [] ∨ b ≠ [] ∨ c ≠ [] ∨ d ≠ []) :
    a ++ b ++ c ++ d ≠ [] := by
  intro hc
  simp only [List.append_eq_nil] at hc
  rcases h with h | h | h | h
  · exact h hc.1.1.1
  · exact h hc.1.1.2
  · exact h hc.1.2
  · exact h hc.2

theorem combine2_ok {α β γ : Type} {f : α → β → γ} {ra : Except (List FieldError) α}
    {rb : Except (List FieldError) β} {c : γ} (h : combine2 f ra rb = .ok c) :
    ∃ a b, ra = .ok a ∧ rb = .ok b ∧ c = f a b := by
  cases ra <;> cases rb <;>
    first
    | exact Except.noConfusion h
    | exact ⟨_, _, rfl, rfl, (Except.ok.inj h).symm⟩

theorem combine2_eq_ok {α β γ : Type} {f : α → β → γ} {ra : Except (List FieldError) α}
    {rb : Except (List FieldError) β} {a : α} {b : β}
    (ha : ra = .ok a) (hb : rb = .ok b) : combine2 f ra rb = .ok (f a b) := by
  subst ha; subst hb; rfl

theorem combine2_error_ne {α β γ : Type} {f : α → β → γ} {ra : Except (List FieldError) α}
    {rb : Except (List FieldError) β} {es : List FieldError}
    (ha : ∀ e, ra = .error e → e ≠ []) (hb : ∀ e, rb = .error e → e ≠ [])
    (h : combine2 f ra rb = .error es) : es ≠ [] := by
  cases ra <;> cases rb <;>
    first
    | exact Except.noConfusion h
    | exact (Except.error.inj h) ▸ append2_ne (Or.inl (ha _ rfl))
    | exact (Except.error.inj h) ▸ append2_ne (Or.inr (hb _ rfl))

theorem combine3_ok {α β γ δ : Type} {f : α → β → γ → δ} {ra : Except (List FieldError) α}
    {rb : Except (List FieldError) β} {rc : Except (List FieldError) γ} {c : δ}
    (h : combine3 f ra rb rc = .ok c) :
    ∃ a b c2, ra = .ok a ∧ rb = .ok b ∧ rc = .ok c2 ∧ c = f a b c2 := by
  cases ra <;> cases rb <;> cases rc <;>
    first
    | exact Except.noConfusion h
    | exact ⟨_, _, _, rfl, rfl, rfl, (Except.ok.inj h).symm⟩

theorem combine3_eq_ok {α β γ δ : Type} {f : α → β → γ → δ} {ra : Except (List FieldError) α}
    {rb : Except (List FieldError) β} {rc : Except (List FieldError) γ} {a : α} {b : β} {c : γ}
    (ha : ra = .ok a) (hb : rb = .ok b) (hc2 : rc = .ok c) :
    combine3 f ra rb rc = .ok (f a b c) := by
  subst ha; subst hb; subst hc2; rfl

theorem combine3_error_ne {α β γ δ : Type} {f : α → β → γ → δ} {ra : Except (List FieldError) α}
    {rb : Except (List FieldError) β} {rc : Except (List FieldError) γ} {es : List FieldError}
    (ha : ∀ e, ra = .error e → e ≠ []) (hb : ∀ e, rb = .error e → e ≠ [])
    (hc2 : ∀ e, rc = .error e → e ≠ [])
    (h : combine3 f ra rb rc = .error es) : es ≠ [] := by
  cases ra <;> cases rb <;> cases rc <;>
    first
    | exact Except.noConfusion h
    | exact (Except.error.inj h) ▸ append3_ne (Or.inl (ha _ rfl))
    | exact (Except.error.inj h) ▸ append3_ne (Or.inr (Or.inl (hb _ rfl)))
    | exact (Except.error.inj h) ▸ append3_ne (Or.inr (Or.inr (hc2 _ rfl)))

theorem combine4_ok {α β γ δ ε : Type} {f : α → β → γ → δ → ε} {ra : Except (List FieldError) α}
    {rb : Except (List FieldError) β} {rc : Except (List FieldError) γ}
    {rd : Except (List FieldError) δ} {c : ε} (h : combine4 f ra rb rc rd = .ok c) :
    ∃ a b c2 d, ra = .ok a ∧ rb = .ok b ∧ rc = .ok c2 ∧ rd = .ok d ∧ c = f a b c2 d := by
  cases ra <;> cases rb <;> cases rc <;> cases rd <;>
    first
    | exact Except.noConfusion h
    | exact ⟨_, _, _, _, rfl, rfl, rfl, rfl, (Except.ok.inj h).symm⟩

theorem combine4_eq_ok {α β γ δ ε : Type} {f : α → β → γ → δ → ε}
    {ra : Except (List FieldError) α} {rb : Except (List FieldError) β}
    {rc : Except (List FieldError) γ} {rd : Except (List FieldError) δ}
    {a : α} {b : β} {c : γ} {d : δ}
    (ha : ra = .ok a) (hb : rb = .ok b) (hc2 : rc = .ok c) (hd : rd = .ok d) :
    combine4 f ra rb rc rd = .ok (f a b c d) := by
  subst ha; subst hb; subst hc2; subst hd; rfl

theorem combine4_error_ne {α β γ δ ε : Type} {f : α → β → γ → δ → ε}
    {ra : Except (List FieldError) α} {rb : Except (List FieldError) β}
    {rc : Except (List FieldError) γ} {rd : Except (List FieldError) δ} {es : List FieldError}
    (ha : ∀ e, ra = .error e → e ≠ []) (hb : ∀ e, rb = .error e → e ≠ [])
    (hc2 : ∀ e, rc = .error e → e ≠ []) (hd : ∀ e, rd = .error e → e ≠ [])
    (h : combine4 f ra rb rc rd = .error es) : es ≠ [] := by
  cases ra <;> cases rb <;> cases rc <;> cases rd <;>
    first
    | exact Except.noConfusion h
    | exact (Except.error.inj h) ▸ append4_ne (Or.inl (ha _ rfl))
    | exact (Except.error.inj h) ▸ append4_ne (Or.inr (Or.inl (hb _ rfl)))
    | exact (Except.error.inj h) ▸ append4_ne (Or.inr (Or.inr (Or.inl (hc2 _ rfl))))
    | exact (Except.error.inj h) ▸ append4_ne (Or.inr (Or.inr (Or.inr (hd _ rfl))))

theorem combine4_error_of_left {α β γ δ ε : Type} {f : α → β → γ → δ → ε}
    {ra : Except (List FieldError) α} {rb : Except (List FieldError) β}
    {rc : Except (List FieldError) γ} {rd : Except (List FieldError) δ} {ea : List FieldError}
    (ha : ra = .error ea) :
    combine4 f ra rb rc rd = .error (ea ++ errsOf rb ++ errsOf rc ++ errsOf rd) := by
  subst ha
  cases rb <;> cases rc <;> cases rd <;> rfl

/-! ### Step-field lemmas -/

theorem validateStep_dict_eq (d : List (String × Val)) :
    validateStep (.dict d) =
      combine2 TestStep.mk
        (validateStrField ["action"] Option.none (d.lookup "action"))
        (validateStrField ["expected"] Option.none (d.lookup "expected")) := rfl

theorem validateStep_eq_ok {v : Val} (h : stepOk v) : validateStep v = .ok (stepNorm v) := by
  obtain ⟨a, e, hla, hle, hsa, hse⟩ := h
  cases v with
  | dict d =>
    have hla2 : d.lookup "action" = some (.str a) := hla
    have hle2 : d.lookup "expected" = some (.str e) := hle
    have hnorm : stepNorm (.dict d) = ⟨pyStrip a, pyStrip e⟩ := by
      rw [show stepNorm (.dict d) =
          (match d.lookup "action", d.lookup "expected" with
            | some (.str a2), some (.str e2) => (⟨pyStrip a2, pyStrip e2⟩ : TestStep)
            | _, _ => ⟨"", ""⟩) from rfl, hla2, hle2]
    rw [validateStep_dict_eq, hla2, hle2, hnorm]
    exact combine2_eq_ok (validateStrField_str_eq_ok_none hsa) (validateStrField_str_eq_ok_none hse)
  | none => simp [dictLookup] at hla
  | str s => simp [dictLookup] at hla
  | int n => simp [dictLookup] at hla
  | list l => simp [dictLookup] at hla

theorem validateStep_ok {v : Val} {s : TestStep} (h : validateStep v = .ok s) :
    s.action ≠ "" ∧ pyStrip s.action = s.action ∧
      s.expected ≠ "" ∧ pyStrip s.expected = s.expected := by
  cases v with
  | none => exact Except.noConfusion h
  | str s2 => exact Except.noConfusion h
  | int n => exact Except.noConfusion h
  | list l => exact Except.noConfusion h
  | dict d =>
    rw [validateStep_dict_eq] at h
    obtain ⟨a, e, ha, he, hs⟩ := combine2_ok h
    obtain ⟨ha1, ha2⟩ := validateStrField_ok_none ha
    obtain ⟨he1, he2⟩ := validateStrField_ok_none he
    subst hs
    exact ⟨ha1, ha2, he1, he2⟩

theorem validateStep_error_ne {v : Val} {es : List FieldError}
    (h : validateStep v = .error es) : es ≠ [] := by
  cases v with
  | none => exact fun hc => List.noConfusion ((Except.error.inj h).trans hc)
  | str s2 => exact fun hc => List.noConfusion ((Except.error.inj h).trans hc)
  | int n => exact fun hc => List.noConfusion ((Except.error.inj h).trans hc)
  | list l => exact fun hc => List.noConfusion ((Except.error.inj h).trans hc)
  | dict d =>
    rw [validateStep_dict_eq] at h
    exact combine2_error_ne (fun e he => validateStrField_error_ne he)
      (fun e he => validateStrField_error_ne he) h

theorem validateStepItems_cons_eq (i : Nat) (v : Val) (rest : List Val) :
    validateStepItems i (v :: rest) =
      combine2 List.cons
        ((validateStep v).mapError (List.map (prefixLoc ["steps", toString i])))
        (validateStepItems (i + 1) rest) := rfl

theorem validateStepItems_eq_ok {items : List Val} (h : ∀ v ∈ items, stepOk v) :
    ∀ i, validateStepItems i items = .ok (items.map stepNorm) := by
  induction items with
  | nil => intro i; rfl
  | cons v rest ih =>
    intro i
    rw [validateStepItems_cons_eq, List.map_cons]
    have h1 : validateStep v = .ok (stepNorm v) := validateStep_eq_ok (h v (by simp))
    exact combine2_eq_ok (by rw [h1]; rfl) (ih (fun u hu => h u (by simp [hu])) (i + 1))

theorem validateStepItems_ok {items : List Val} : ∀ {i : Nat} {ss : List TestStep},
    validateStepItems i items = .ok ss →
    (∀ s ∈ ss, s.action ≠ "" ∧ pyStrip s.action = s.action ∧
      s.expected ≠ "" ∧ pyStrip s.expected = s.expected) ∧ ss.length = items.length := by
  induction items with
  | nil =>
    intro i ss h
    have h2 : ([] : List TestStep) = ss := Except.ok.inj h
    subst h2
    exact ⟨by simp, rfl⟩
  | cons v rest ih =>
    intro i ss h
    rw [validateStepItems_cons_eq] at h
    obtain ⟨s, ss2, hs, hss, heq⟩ := combine2_ok h
    subst heq
    have hv : validateStep v = .ok s := by
      cases hvv : validateStep v with
      | ok s2 =>
        rw [hvv] at hs
        exact congrArg Except.ok (Except.ok.inj hs)
      | error e => rw [hvv] at hs; exact Except.noConfusion hs
    have inv := validateStep_ok hv
    obtain ⟨hinv, hlen⟩ := ih hss
    refine ⟨?_, by simp [hlen]⟩
    intro x hx
    rcases List.mem_cons.1 hx with h2 | h2
    · subst h2; exact inv
    · exact hinv x h2

theorem validateStepItems_error_ne {items : List Val} : ∀ {i : Nat} {es : List FieldError},
    validateStepItems i items = .error es → es ≠ [] := by
  induction items with
  | nil => intro i es h; exact Except.noConfusion h
  | cons v rest ih =>
    intro i es h
    rw [validateStepItems_cons_eq] at h
    refine combine2_error_ne ?_ (fun e he => ih he) h
    intro e he
    cases hvv : validateStep v with
    | ok s => rw [hvv] at he; exact Except.noConfusion he
    | error e2 =>
      rw [hvv] at he
      have h2 : List.map (prefixLoc ["steps", toString i]) e2 = e := Except.error.inj he
      exact fun hc => validateStep_error_ne hvv (List.map_eq_nil_iff.1 (h2.trans hc))

theorem validateStepsField_list_eq (items : List Val) :
    validateStepsField (some (.list items)) =
      if items.length < 1 then .error [⟨["steps"], "ensure this value has at least 1 items"⟩]
      else validateStepItems 0 items := rfl

theorem validateStepsField_eq_ok {items : List Val} (hne : items ≠ [])
    (h : ∀ v ∈ items, stepOk v) :
    validateStepsField (some (.list items)) = .ok (items.map stepNorm) := by
  rw [validateStepsField_list_eq, if_neg (by have := List.length_pos.2 hne; omega)]
  exact validateStepItems_eq_ok h 0

theorem validateStepsField_ok {v : Option Val} {ss : List TestStep}
    (h : validateStepsField v = .ok ss) :
    ss ≠ [] ∧ (∀ s ∈ ss, s.action ≠ "" ∧ pyStrip s.action = s.action ∧
      s.expected ≠ "" ∧ pyStrip s.expected = s.expected) := by
  match v, h with
  | some (.list items), h =>
    rw [validateStepsField_list_eq] at h
    split at h
    · exact Except.noConfusion h
    · rename_i hlen
      obtain ⟨hinv, hlength⟩ := validateStepItems_ok h
      refine ⟨?_, hinv⟩
      intro hc
      rw [hc] at hlength
      simp at hlength
      omega

theorem validateStepsField_error_ne {v : Option Val} {es : List FieldError}
    (h : validateStepsField v = .error es) : es ≠ [] := by
  match v, h with
  | Option.none, h => exact fun hc => List.noConfusion ((Except.error.inj h).trans hc)
  | some Val.none, h => exact fun hc => List.noConfusion ((Except.error.inj h).trans hc)
  | some (.str s), h => exact fun hc => List.noConfusion ((Except.error.inj h).trans hc)
  | some (.int n), h => exact fun hc => List.noConfusion ((Except.error.inj h).trans hc)
  | some (.dict d), h => exact fun hc => List.noConfusion ((Except.error.inj h).trans hc)
  | some (.list items), h =>
    rw [validateStepsField_list_eq] at h
    split at h
    · exact fun hc => List.noConfusion ((Except.error.inj h).trans hc)
    · exact validateStepItems_error_ne h

/-! ### TestCase-core lemmas -/

theorem validateTestCaseCore_eq_ok {data : List (String × Val)} {t d : String}
    {items : List Val} {prio : Option Int}
    (ht : data.lookup "title" = some (.str t)) (htl : t.length ≤ 255)
    (hts : pyStrip t ≠ "")
    (hd : data.lookup "description" = some (.str d)) (hds : pyStrip d ≠ "")
    (hs : data.lookup "steps" = some (.list items)) (hne : items ≠ [])
    (hstep : ∀ v ∈ items, stepOk v)
    (hp : (data.lookup "priority" = Option.none ∧ prio = some 2) ∨
      (∃ n, data.lookup "priority" = some (.int n) ∧ 1 ≤ n ∧ n ≤ 4 ∧ prio = some n)) :
    validateTestCaseCore data = .ok ⟨pyStrip t, pyStrip d, items.map stepNorm, prio⟩ := by
  unfold validateTestCaseCore
  rw [ht, hd, hs]
  rcases hp with ⟨hpl, hpv⟩ | ⟨n, hpl, hn1, hn4, hpv⟩
  · rw [hpl]
    subst hpv
    exact combine4_eq_ok (validateStrField_str_eq_ok_some hts htl)
      (validateStrField_str_eq_ok_none hds)
      (validateStepsField_eq_ok hne hstep) validatePriorityField_absent_eq
  · rw [hpl]
    subst hpv
    exact combine4_eq_ok (validateStrField_str_eq_ok_some hts htl)
      (validateStrField_str_eq_ok_none hds)
      (validateStepsField_eq_ok hne hstep) (validatePriorityField_int_eq_ok hn1 hn4)

theorem validateTestCaseCore_ok {data : List (String × Val)} {tc : TestCase}
    (h : validateTestCaseCore data = .ok tc) :
    tc.title ≠ "" ∧ pyStrip tc.title = tc.title ∧ tc.title.length ≤ 255 ∧
    tc.description ≠ "" ∧ pyStrip tc.description = tc.description ∧
    tc.steps ≠ [] ∧
    (∀ s ∈ tc.steps, s.action ≠ "" ∧ pyStrip s.action = s.action ∧
      s.expected ≠ "" ∧ pyStrip s.expected = s.expected) ∧
    (tc.priority = Option.none ∨ ∃ n, tc.priority = some n ∧ 1 ≤ n ∧ n ≤ 4) := by
  unfold validateTestCaseCore at h
  obtain ⟨t, d2, ss, p, ht, hd, hs, hp, heq⟩ := combine4_ok h
  subst heq
  obtain ⟨ht1, ht2, ht3⟩ := validateStrField_ok_some ht
  obtain ⟨hd1, hd2⟩ := validateStrField_ok_none hd
  obtain ⟨hs1, hs2⟩ := validateStepsField_ok hs
  exact ⟨ht1, ht2, ht3, hd1, hd2, hs1, hs2, validatePriorityField_ok hp⟩

theorem validateTestCaseCore_error_ne {data : List (String × Val)} {es : List FieldError}
    (h : validateTestCaseCore data = .error es) : es ≠ [] := by
  unfold validateTestCaseCore at h
  exact combine4_error_ne (fun e he => validateStrField_error_ne he)
    (fun e he => validateStrField_error_ne he)
    (fun e he => validateStepsField_error_ne he)
    (fun e he => validatePriorityField_error_ne he) h

/-! ### Batch-side lemmas -/

theorem validateCaseItem_error_ne {i : Nat} {v : Val} {es : List FieldError}
    (h : validateCaseItem i v = .error es) : es ≠ [] := by
  cases v with
  | none => exact fun hc => List.noConfusion ((Except.error.inj h).trans hc)
  | str s => exact fun hc => List.noConfusion ((Except.error.inj h).trans hc)
  | int n => exact fun hc => List.noConfusion ((Except.error.inj h).trans hc)
  | list l => exact fun hc => List.noConfusion ((Except.error.inj h).trans hc)
  | dict d =>
    have h2 : (validateTestCaseCore d).mapError
        (List.map (prefixLoc ["test_cases", toString i])) = .error es := h
    cases hvv : validateTestCaseCore d with
    | ok tc => rw [hvv] at h2; exact Except.noConfusion h2
    | error e2 =>
      rw [hvv] at h2
      have h3 : List.map (prefixLoc ["test_cases", toString i]) e2 = es := Except.error.inj h2
      exact fun hc => validateTestCaseCore_error_ne hvv (List.map_eq_nil_iff.1 (h3.trans hc))

theorem validateCaseItems_cons_eq (i : Nat) (v : Val) (rest : List Val) :
    validateCaseItems i (v :: rest) =
      combine2 List.cons (validateCaseItem i v) (validateCaseItems (i + 1) rest) := rfl

theorem validateCaseItems_error_ne {items : List Val} : ∀ {i : Nat} {es : List FieldError},
    validateCaseItems i items = .error es → es ≠ [] := by
  induction items with
  | nil => intro i es h; exact Except.noConfusion h
  | cons v rest ih =>
    intro i es h
    rw [validateCaseItems_cons_eq] at h
    exact combine2_error_ne (fun e he => validateCaseItem_error_ne he) (fun e he => ih he) h

theorem validateCaseItems_length {items : List Val} : ∀ {i : Nat} {tcs : List TestCase},
    validateCaseItems i items = .ok tcs → tcs.length = items.length := by
  induction items with
  | nil =>
    intro i tcs h
    have h2 : ([] : List TestCase) = tcs := Except.ok.inj h
    subst h2
    rfl
  | cons v rest ih =>
    intro i tcs h
    rw [validateCaseItems_cons_eq] at h
    obtain ⟨tc, tcs2, hv, hrest, heq⟩ := combine2_ok h
    subst heq
    simp [ih hrest]

theorem validateTestCasesField_list_eq (items : List Val) :
    validateTestCasesField (some (.list items)) =
      if items.length < 1 then
        .error [⟨["test_cases"], "ensure this value has at least 1 items"⟩]
      else
        (validateCaseItems 0 items).bind (fun tcs =>
          if (tcs.map TestCase.title).dedup.length = (tcs.map TestCase.title).length then .ok tcs
          else .error [⟨["test_cases"], "Test case titles must be unique within a batch"⟩]) := rfl

theorem validateTestCasesField_dup {items : List Val} {tcs : List TestCase}
    (hci : validateCaseItems 0 items = .ok tcs)
    (hdup : (tcs.map TestCase.title).dedup.length ≠ (tcs.map TestCase.title).length) :
    validateTestCasesField (some (.list items)) =
      .error [⟨["test_cases"], "Test case titles must be unique within a batch"⟩] := by
  have hlen := validateCaseItems_length hci
  have htcs : tcs ≠ [] := by
    intro hc
    subst hc
    simp at hdup
  have hitems : ¬ items.length < 1 := by
    have := List.length_pos.2 htcs
    omega
  rw [validateTestCasesField_list_eq, if_neg hitems, hci, except_bind_ok, if_neg hdup]

theorem validateTestCasesField_error_ne {v : Option Val} {es : List FieldError}
    (h : validateTestCasesField v = .error es) : es ≠ [] := by
  match v, h with
  | Option.none, h => exact fun hc => List.noConfusion ((Except.error.inj h).trans hc)
  | some Val.none, h => exact fun hc => List.noConfusion ((Except.error.inj h).trans hc)
  | some (.str s), h => exact fun hc => List.noConfusion ((Except.error.inj h).trans hc)
  | some (.int n), h => exact fun hc => List.noConfusion ((Except.error.inj h).trans hc)
  | some (.dict d), h => exact fun hc => List.noConfusion ((Except.error.inj h).trans hc)
  | some (.list items), h =>
    rw [validateTestCasesField_list_eq] at h
    split at h
    · exact fun hc => List.noConfusion ((Except.error.inj h).trans hc)
    · cases hci : validateCaseItems 0 items with
      | error e2 =>
        rw [hci, except_bind_error] at h
        exact (Except.error.inj h) ▸ validateCaseItems_error_ne hci
      | ok tcs =>
        rw [hci, except_bind_ok] at h
        split at h
        · exact Except.noConfusion h
        · exact fun hc => List.noConfusion ((Except.error.inj h).trans hc)

theorem validateUserStoryId_error_ne {v : Option Val} {es : List FieldError}
    (h : validateUserStoryId v = .error es) : es ≠ [] := by
  match v, h with
  | Option.none, h => exact fun hc => List.noConfusion ((Except.error.inj h).trans hc)
  | some Val.none, h => exact fun hc => List.noConfusion ((Except.error.inj h).trans hc)
  | some (.str s), h =>
    exact parseIntVal_error_ne (show parseIntVal ["user_story_id"] (.str s) = .error es from h)
  | some (.int n), h =>
    exact parseIntVal_error_ne (show parseIntVal ["user_story_id"] (.int n) = .error es from h)
  | some (.list l), h =>
    exact parseIntVal_error_ne (show parseIntVal ["user_story_id"] (.list l) = .error es from h)
  | some (.dict d), h =>
    exact parseIntVal_error_ne (show parseIntVal ["user_story_id"] (.dict d) = .error es from h)

theorem validateMetadataField_error_ne {v : Option Val} {es : List FieldError}
    (h : validateMetadataField v = .error es) : es ≠ [] := by
  match v, h with
  | some (.str s), h => exact fun hc => List.noConfusion ((Except.error.inj h).trans hc)
  | some (.int n), h => exact fun hc => List.noConfusion ((Except.error.inj h).trans hc)
  | some (.list l), h => exact fun hc => List.noConfusion ((Except.error.inj h).trans hc)

theorem validateBatchCore_error_ne {data : List (String × Val)} {es : List FieldError}
    (h : validateBatchCore data = .error es) : es ≠ [] := by
  unfold validateBatchCore at h
  exact combine3_error_ne (fun e he => validateTestCasesField_error_ne he)
    (fun e he => validateUserStoryId_error_ne he)
    (fun e he => validateMetadataField_error_ne he) h

theorem combine3_error_of_left {α β γ δ : Type} {f : α → β → γ → δ}
    {ra : Except (List FieldError) α} {rb : Except (List FieldError) β}
    {rc : Except (List FieldError) γ} {ea : List FieldError}
    (ha : ra = .error ea) :
    combine3 f ra rb rc = .error (ea ++ errsOf rb ++ errsOf rc) := by
  subst ha
  cases rb <;> cases rc <;> rfl

/-! ### Result-shape and retry-loop equations -/

theorem validate_single_eq_of_ok {data : List (String × Val)} {tc : TestCase}
    (h : validateTestCaseCore data = .ok tc) :
    validate_single_testcase data = ⟨true, [], [], some (.case tc)⟩ := by
  unfold validate_single_testcase
  rw [h]

theorem validate_single_eq_of_error {data : List (String × Val)} {es : List FieldError}
    (h : validateTestCaseCore data = .error es) :
    validate_single_testcase data = ⟨false, es.map formatError, [], Option.none⟩ := by
  unfold validate_single_testcase
  rw [h]

theorem validate_batch_eq_of_ok {data : List (String × Val)} {b : TestCaseBatch}
    (h : validateBatchCore data = .ok b) :
    validate_testcase_batch data = ⟨true, [], [], some (.batch b)⟩ := by
  unfold validate_testcase_batch
  rw [h]

theorem validate_batch_eq_of_error {data : List (String × Val)} {es : List FieldError}
    (h : validateBatchCore data = .error es) :
    validate_testcase_batch data = ⟨false, es.map formatError, [], Option.none⟩ := by
  unfold validate_testcase_batch
  rw [h]

theorem retryLoop_succ_eq (data : List (String × Val)) (vt : String) (fuel attempts : Nat)
    (last : Option ValidationResult) :
    retryLoop data vt (fuel + 1) attempts last =
      if vt = "single" then
        (if (validate_single_testcase data).is_valid then
          (attempts + 1, validate_single_testcase data)
        else retryLoop data vt fuel (attempts + 1) (some (validate_single_testcase data)))
      else if vt = "batch" then
        (if (validate_testcase_batch data).is_valid then
          (attempts + 1, validate_testcase_batch data)
        else retryLoop data vt fuel (attempts + 1) (some (validate_testcase_batch data)))
      else (attempts, ⟨false, ["Unknown validation type: " ++ vt], [], Option.none⟩) := rfl

theorem retryLoop_single_valid {data : List (String × Val)}
    (h : (validate_single_testcase data).is_valid = true) (fuel attempts : Nat)
    (last : Option ValidationResult) :
    retryLoop data "single" (fuel + 1) attempts last =
      (attempts + 1, validate_single_testcase data) := by
  rw [retryLoop_succ_eq, if_pos rfl, if_pos h]

theorem retryLoop_single_invalid {data : List (String × Val)}
    (h : ¬ (validate_single_testcase data).is_valid = true) :
    ∀ fuel attempts (last : Option ValidationResult),
      retryLoop data "single" (fuel + 1) attempts last =
        (attempts + fuel + 1, validate_single_testcase data) := by
  intro fuel
  induction fuel with
  | zero =>
    intro attempts last
    rw [retryLoop_succ_eq, if_pos rfl, if_neg h]
    rfl
  | succ n ih =>
    intro attempts last
    rw [retryLoop_succ_eq, if_pos rfl, if_neg h, ih]
    simp only [Prod.mk.injEq]
    exact ⟨by omega, trivial⟩

theorem retryLoop_batch_valid {data : List (String × Val)}
    (h : (validate_testcase_batch data).is_valid = true) (fuel attempts : Nat)
    (last : Option ValidationResult) :
    retryLoop data "batch" (fuel + 1) attempts last =
      (attempts + 1, validate_testcase_batch data) := by
  rw [retryLoop_succ_eq, if_neg (by decide), if_pos rfl, if_pos h]

theorem retryLoop_batch_invalid {data : List (String × Val)}
    (h : ¬ (validate_testcase_batch data).is_valid = true) :
    ∀ fuel attempts (last : Option ValidationResult),
      retryLoop data "batch" (fuel + 1) attempts last =
        (attempts + fuel + 1, validate_testcase_batch data) := by
  intro fuel
  induction fuel with
  | zero =>
    intro attempts last
    rw [retryLoop_succ_eq, if_neg (by decide), if_pos rfl, if_neg h]
    rfl
  | succ n ih =>
    intro attempts last
    rw [retryLoop_succ_eq, if_neg (by decide), if_pos rfl, if_neg h, ih]
    simp only [Prod.mk.injEq]
    exact ⟨by omega, trivial⟩

/-! ### Claim theorems for the schema validator -/

/-- C1 counterexample: a title of 255 `a`s followed by one space has trimmed
length 255 (inside the claimed range [1, 255]), the other fields satisfy the
claim's conditions, yet `validate_single_testcase` rejects the input: the
built-in `max_length=255` constraint runs on the raw (untrimmed) string of
length 256, before the trimming validator. -/
theorem validate_single_trimmed_title_counterexample :
    (1 ≤ (pyStrip ⟨List.replicate 255 'a' ++ [' ']⟩).length ∧
      (pyStrip ⟨List.replicate 255 'a' ++ [' ']⟩).length ≤ 255) ∧
    (validate_single_testcase
      [("title", .str ⟨List.replicate 255 'a' ++ [' ']⟩),
       ("description", .str "Verify login"),
       ("steps", .list [.dict [("action", .str "Open page"), ("expected", .str "Page loads")]])]).is_valid
      = false ∧
    (validate_single_testcase
      [("title", .str ⟨List.replicate 255 'a' ++ [' ']⟩),
       ("description", .str "Verify login"),
       ("steps", .list [.dict [("action", .str "Open page"), ("expected", .str "Page loads")]])]).errors
      = ["Field 'title': ensure this value has at most 255 characters"] := by
  set_option maxRecDepth 100000 in refine ⟨⟨?_, ?_⟩, ?_, ?_⟩ <;> decide

/-- C1 (amended): for every input mapping whose `title` is a string of raw
length at most 255 that is non-empty after trimming, whose `description` is
a string non-empty after trimming, whose `steps` is a non-empty list of
mappings with string `action` and `expected` entries non-empty after
trimming, and whose `priority` is absent (defaulting to 2) or an integer in
[1, 4], `validate_single_testcase` returns a valid result holding the
trimmed field values. -/
theorem validate_single_accepts_valid_input
    (data : List (String × Val)) (t d : String) (items : List Val) (prio : Option Int)
    (ht : data.lookup "title" = some (.str t))
    (htl : t.length ≤ 255) (hts : pyStrip t ≠ "")
    (hd : data.lookup "description" = some (.str d)) (hds : pyStrip d ≠ "")
    (hs : data.lookup "steps" = some (.list items)) (hne : items ≠ [])
    (hstep : ∀ v ∈ items, stepOk v)
    (hp : (data.lookup "priority" = Option.none ∧ prio = some 2) ∨
      (∃ n, data.lookup "priority" = some (.int n) ∧ 1 ≤ n ∧ n ≤ 4 ∧ prio = some n)) :
    validate_single_testcase data =
      ⟨true, [], [], some (.case ⟨pyStrip t, pyStrip d, items.map stepNorm, prio⟩)⟩ :=
  validate_single_eq_of_ok
    (validateTestCaseCore_eq_ok ht htl hts hd hds hs hne hstep hp)

/-- C1 witness: the spec's concrete valid scenario, accepted with priority
defaulted to 2 and fields as given. -/
theorem validate_single_accepts_valid_input_witness :
    validate_single_testcase
      [("title", .str "Login Test"), ("description", .str "Verify login"),
       ("steps", .list [.dict [("action", .str "Open page"), ("expected", .str "Page loads")]])] =
      ⟨true, [], [],
        some (.case ⟨"Login Test", "Verify login", [⟨"Open page", "Page loads"⟩], some 2⟩)⟩ := by
  have h := validate_single_accepts_valid_input
    [("title", .str "Login Test"), ("description", .str "Verify login"),
     ("steps", .list [.dict [("action", .str "Open page"), ("expected", .str "Page loads")]])]
    "Login Test" "Verify login"
    [.dict [("action", .str "Open page"), ("expected", .str "Page loads")]] (some 2)
    rfl (by decide) (by decide) rfl (by decide) rfl (fun hc => List.noConfusion hc)
    (by
      intro v hv
      rcases List.mem_singleton.1 hv with rfl
      exact ⟨"Open page", "Page loads", rfl, rfl, by decide, by decide⟩)
    (Or.inl ⟨rfl, rfl⟩)
  exact h.trans rfl

/-- Shared scenario for C3: a failed title field plus an empty `steps` list
produce (at least) one error each, in one ValidationResult. -/
theorem validate_single_title_steps_errors {data : List (String × Val)} {tmsg : String}
    (hterr : validateStrField ["title"] (some 255) (data.lookup "title") =
      .error [⟨["title"], tmsg⟩])
    (hs : data.lookup "steps" = some (.list [])) :
    (validate_single_testcase data).is_valid = false ∧
    ("Field 'title': " ++ tmsg) ∈ (validate_single_testcase data).errors ∧
    "Field 'steps': ensure this value has at least 1 items" ∈
      (validate_single_testcase data).errors ∧
    2 ≤ (validate_single_testcase data).errors.length := by
  have hserr : validateStepsField (data.lookup "steps") =
      .error [⟨["steps"], "ensure this value has at least 1 items"⟩] := by
    rw [hs]; rfl
  have hcore : validateTestCaseCore data =
      .error ([⟨["title"], tmsg⟩] ++
        errsOf (validateStrField ["description"] Option.none (data.lookup "description")) ++
        errsOf (validateStepsField (data.lookup "steps")) ++
        errsOf (validatePriorityField (data.lookup "priority"))) := by
    unfold validateTestCaseCore
    exact combine4_error_of_left hterr
  rw [validate_single_eq_of_error hcore]
  refine ⟨rfl, ?_, ?_, ?_⟩
  · exact List.mem_map.2 ⟨⟨["title"], tmsg⟩, by simp, rfl⟩
  · rw [hserr]
    exact List.mem_map.2
      ⟨⟨["steps"], "ensure this value has at least 1 items"⟩, by simp [errsOf], rfl⟩
  · rw [hserr]
    simp [errsOf, List.length_append, List.length_map]
    omega

/-- C3: when `title` is missing (or the empty string) and `steps` is the
empty list, `validate_single_testcase` reports both violations: an invalid
result whose errors contain a title-field entry and a steps-field entry
(two distinct strings), with at least two errors in total — the error list
is not short-circuited across fields. -/
theorem validate_single_error_accumulation
    (data : List (String × Val))
    (ht : data.lookup "title" = Option.none ∨ data.lookup "title" = some (.str ""))
    (hs : data.lookup "steps" = some (.list [])) :
    (validate_single_testcase data).is_valid = false ∧
    ("Field 'title': field required" ∈ (validate_single_testcase data).errors ∨
      "Field 'title': ensure this value has at least 1 characters" ∈
        (validate_single_testcase data).errors) ∧
    "Field 'steps': ensure this value has at least 1 items" ∈
      (validate_single_testcase data).errors ∧
    2 ≤ (validate_single_testcase data).errors.length := by
  rcases ht with h | h
  · have hterr : validateStrField ["title"] (some 255) (data.lookup "title") =
        .error [⟨["title"], "field required"⟩] := by rw [h]; rfl
    obtain ⟨h1, h2, h3, h4⟩ := validate_single_title_steps_errors hterr hs
    exact ⟨h1, Or.inl h2, h3, h4⟩
  · have hterr : validateStrField ["title"] (some 255) (data.lookup "title") =
        .error [⟨["title"], "ensure this value has at least 1 characters"⟩] := by
      rw [h]; rfl
    obtain ⟨h1, h2, h3, h4⟩ := validate_single_title_steps_errors hterr hs
    exact ⟨h1, Or.inr h2, h3, h4⟩

/-- C3 witness: the spec's concrete scenario
`{"title": "", "description": "x", "steps": []}`. -/
theorem validate_single_error_accumulation_witness :
    (validate_single_testcase
      [("title", .str ""), ("description", .str "x"), ("steps", .list [])]).is_valid = false ∧
    ("Field 'title': field required" ∈ (validate_single_testcase
        [("title", .str ""), ("description", .str "x"), ("steps", .list [])]).errors ∨
      "Field 'title': ensure this value has at least 1 characters" ∈
        (validate_single_testcase
          [("title", .str ""), ("description", .str "x"), ("steps", .list [])]).errors) ∧
    "Field 'steps': ensure this value has at least 1 items" ∈
      (validate_single_testcase
        [("title", .str ""), ("description", .str "x"), ("steps", .list [])]).errors ∧
    2 ≤ (validate_single_testcase
      [("title", .str ""), ("description", .str "x"), ("steps", .list [])]).errors.length :=
  validate_single_error_accumulation
    [("title", .str ""), ("description", .str "x"), ("steps", .list [])]
    (Or.inr rfl) rfl

/-- C4 counterexample: a batch of two test cases with the identical title
`"T"` where item 0 is individually invalid (missing `description`): the
result is invalid, but its full error list is exactly the per-item error —
no error referencing title uniqueness appears, because pydantic skips the
class-level uniqueness validator when item validation already failed. -/
theorem validate_batch_uniqueness_counterexample :
    dictLookup
        (.dict [("title", .str "T"),
          ("steps", .list [.dict [("action", .str "A"), ("expected", .str "E")]])]) "title" =
      dictLookup
        (.dict [("title", .str "T"), ("description", .str "D"),
          ("steps", .list [.dict [("action", .str "A"), ("expected", .str "E")]])]) "title" ∧
    validate_testcase_batch
      [("test_cases", .list
        [.dict [("title", .str "T"),
          ("steps", .list [.dict [("action", .str "A"), ("expected", .str "E")]])],
         .dict [("title", .str "T"), ("description", .str "D"),
          ("steps", .list [.dict [("action", .str "A"), ("expected", .str "E")]])]]),
       ("user_story_id", .int 7)] =
      ⟨false, ["Field 'test_cases -> 0 -> description': field required"], [], Option.none⟩ := by
  exact ⟨rfl, rfl⟩

/-- C4 (amended): when every element of `test_cases` individually validates
(so `validateCaseItems` succeeds) and two of the resulting titles coincide,
`validate_testcase_batch` is invalid and its errors contain the
title-uniqueness error; if some item fails its own validation the batch is
still invalid, but the uniqueness check is skipped and its error may be
absent. -/
theorem validate_batch_uniqueness_amended
    (data : List (String × Val)) (items : List Val) (tcs : List TestCase)
    (hl : data.lookup "test_cases" = some (.list items))
    (hok : validateCaseItems 0 items = .ok tcs)
    (hdup : (tcs.map TestCase.title).dedup.length ≠ (tcs.map TestCase.title).length) :
    (validate_testcase_batch data).is_valid = false ∧
    "Field 'test_cases': Test case titles must be unique within a batch" ∈
      (validate_testcase_batch data).errors := by
  have hfield : validateTestCasesField (data.lookup "test_cases") =
      .error [⟨["test_cases"], "Test case titles must be unique within a batch"⟩] := by
    rw [hl]
    exact validateTestCasesField_dup hok hdup
  have hcore : validateBatchCore data =
      .error ([⟨["test_cases"], "Test case titles must be unique within a batch"⟩] ++
        errsOf (validateUserStoryId (data.lookup "user_story_id")) ++
        errsOf (validateMetadataField (data.lookup "metadata"))) := by
    unfold validateBatchCore
    exact combine3_error_of_left hfield
  rw [validate_batch_eq_of_error hcore]
  refine ⟨rfl, ?_⟩
  exact List.mem_map.2
    ⟨⟨["test_cases"], "Test case titles must be unique within a batch"⟩, by simp, rfl⟩

/-- C4 witness: two identical, individually valid test cases in one batch
trigger the uniqueness error. -/
theorem validate_batch_uniqueness_amended_witness :
    (validate_testcase_batch
      [("test_cases", .list
        [.dict [("title", .str "T"), ("description", .str "D"),
          ("steps", .list [.dict [("action", .str "A"), ("expected", .str "E")]])],
         .dict [("title", .str "T"), ("description", .str "D"),
          ("steps", .list [.dict [("action", .str "A"), ("expected", .str "E")]])]]),
       ("user_story_id", .int 7)]).is_valid = false ∧
    "Field 'test_cases': Test case titles must be unique within a batch" ∈
      (validate_testcase_batch
        [("test_cases", .list
          [.dict [("title", .str "T"), ("description", .str "D"),
            ("steps", .list [.dict [("action", .str "A"), ("expected", .str "E")]])],
           .dict [("title", .str "T"), ("description", .str "D"),
            ("steps", .list [.dict [("action", .str "A"), ("expected", .str "E")]])]]),
         ("user_story_id", .int 7)]).errors :=
  validate_batch_uniqueness_amended
    [("test_cases", .list
      [.dict [("title", .str "T"), ("description", .str "D"),
        ("steps", .list [.dict [("action", .str "A"), ("expected", .str "E")]])],
       .dict [("title", .str "T"), ("description", .str "D"),
        ("steps", .list [.dict [("action", .str "A"), ("expected", .str "E")]])]]),
     ("user_story_id", .int 7)]
    [.dict [("title", .str "T"), ("description", .str "D"),
      ("steps", .list [.dict [("action", .str "A"), ("expected", .str "E")]])],
     .dict [("title", .str "T"), ("description", .str "D"),
      ("steps", .list [.dict [("action", .str "A"), ("expected", .str "E")]])]]
    [⟨"T", "D", [⟨"A", "E"⟩], some 2⟩, ⟨"T", "D", [⟨"A", "E"⟩], some 2⟩]
    rfl rfl (by decide)

/-- C6: with the default retry bound of 3, `validate_with_retry` performs
exactly one validation attempt and returns that result when the payload
validates, and exactly three attempts returning the last attempt's result
when the payload fails validation (the payload is re-validated unchanged, so
every attempt produces the same ValidationResult); this holds for both the
`"single"` and the `"batch"` validation types. -/
theorem validate_with_retry_attempt_semantics (data : List (String × Val)) :
    validate_with_retry 3 data "single" =
      ((if (validate_single_testcase data).is_valid then 1 else 3),
        validate_single_testcase data) ∧
    validate_with_retry 3 data "batch" =
      ((if (validate_testcase_batch data).is_valid then 1 else 3),
        validate_testcase_batch data) := by
  constructor
  · by_cases h : (validate_single_testcase data).is_valid = true
    · rw [if_pos h]
      exact retryLoop_single_valid h 2 0 Option.none
    · rw [if_neg h]
      exact retryLoop_single_invalid h 2 0 Option.none
  · by_cases h : (validate_testcase_batch data).is_valid = true
    · rw [if_pos h]
      exact retryLoop_batch_valid h 2 0 Option.none
    · rw [if_neg h]
      exact retryLoop_batch_invalid h 2 0 Option.none

/-- C7: the validators are total functions returning structured results —
whenever a result is invalid its error list is non-empty — and an
unrecognized validation type passed to `validate_with_retry` is reported
distinctly: zero validator invocations and a single diagnostic error naming
the bad kind. -/
theorem validators_never_throw (data : List (String × Val)) (vt : String) :
    ((validate_single_testcase data).is_valid = false →
      (validate_single_testcase data).errors ≠ []) ∧
    ((validate_testcase_batch data).is_valid = false →
      (validate_testcase_batch data).errors ≠ []) ∧
    (vt ≠ "single" → vt ≠ "batch" →
      validate_with_retry 3 data vt =
        (0, ⟨false, ["Unknown validation type: " ++ vt], [], Option.none⟩)) := by
  refine ⟨?_, ?_, ?_⟩
  · intro hv
    cases hcore : validateTestCaseCore data with
    | ok tc =>
      rw [validate_single_eq_of_ok hcore] at hv
      simp at hv
    | error es =>
      rw [validate_single_eq_of_error hcore]
      intro hc
      exact validateTestCaseCore_error_ne hcore (List.map_eq_nil_iff.1 hc)
  · intro hv
    cases hcore : validateBatchCore data with
    | ok b =>
      rw [validate_batch_eq_of_ok hcore] at hv
      simp at hv
    | error es =>
      rw [validate_batch_eq_of_error hcore]
      intro hc
      exact validateBatchCore_error_ne hcore (List.map_eq_nil_iff.1 hc)
  · intro h1 h2
    have h3 := retryLoop_succ_eq data vt 2 0 Option.none
    rw [if_neg h1, if_neg h2] at h3
    exact h3

/-- C7 witness: the empty mapping is invalid with non-empty errors for both
validators, and the unknown type `"bogus"` yields the single diagnostic. -/
theorem validators_never_throw_witness :
    (validate_single_testcase []).errors ≠ [] ∧
    (validate_testcase_batch []).errors ≠ [] ∧
    validate_with_retry 3 [] "bogus" =
      (0, ⟨false, ["Unknown validation type: bogus"], [], Option.none⟩) := by
  obtain ⟨h1, h2, h3⟩ := validators_never_throw [] "bogus"
  exact ⟨h1 rfl, h2 rfl, h3 (by decide) (by decide)⟩

/-- C8: for both validators, the error list is empty exactly when the result
is valid, and every error string has the shape
`Field '<path>': <message>` where the path joins the location components
(field names, and item indices for nested `steps` / `test_cases` entries). -/
theorem validation_error_format (data : List (String × Val)) :
    ((validate_single_testcase data).errors = [] ↔
      (validate_single_testcase data).is_valid = true) ∧
    ((validate_testcase_batch data).errors = [] ↔
      (validate_testcase_batch data).is_valid = true) ∧
    (∀ e ∈ (validate_single_testcase data).errors, ∃ loc msg,
      e = "Field '" ++ String.intercalate " -> " loc ++ "': " ++ msg) ∧
    (∀ e ∈ (validate_testcase_batch data).errors, ∃ loc msg,
      e = "Field '" ++ String.intercalate " -> " loc ++ "': " ++ msg) := by
  refine ⟨?_, ?_, ?_, ?_⟩
  · cases hcore : validateTestCaseCore data with
    | ok tc => rw [validate_single_eq_of_ok hcore]; simp
    | error es =>
      rw [validate_single_eq_of_error hcore]
      simp only [List.map_eq_nil_iff]
      constructor
      · intro hc
        exact absurd hc (validateTestCaseCore_error_ne hcore)
      · intro hc
        exact absurd hc (by simp)
  · cases hcore : validateBatchCore data with
    | ok b => rw [validate_batch_eq_of_ok hcore]; simp
    | error es =>
      rw [validate_batch_eq_of_error hcore]
      simp only [List.map_eq_nil_iff]
      constructor
      · intro hc
        exact absurd hc (validateBatchCore_error_ne hcore)
      · intro hc
        exact absurd hc (by simp)
  · intro e he
    cases hcore : validateTestCaseCore data with
    | ok tc => rw [validate_single_eq_of_ok hcore] at he; simp at he
    | error es =>
      rw [validate_single_eq_of_error hcore] at he
      obtain ⟨fe, _, heq⟩ := List.mem_map.1 he
      exact ⟨fe.loc, fe.msg, heq.symm⟩
  · intro e he
    cases hcore : validateBatchCore data with
    | ok b => rw [validate_batch_eq_of_ok hcore] at he; simp at he
    | error es =>
      rw [validate_batch_eq_of_error hcore] at he
      obtain ⟨fe, _, heq⟩ := List.mem_map.1 he
      exact ⟨fe.loc, fe.msg, heq.symm⟩

/-- C8 witness: the title error of the empty mapping has the documented
shape. -/
theorem validation_error_format_witness :
    ∃ loc msg, "Field 'title': field required" =
      "Field '" ++ String.intercalate " -> " loc ++ "': " ++ msg :=
  (validation_error_format []).2.2.1 "Field 'title': field required" (by decide)

/-- C9: `validate_single_testcase` is idempotent on its own normalized
output — if it accepts `data` and produces the normalized test case `tc`,
then validating the serialized form of `tc` (its `.dict()` mapping) succeeds
again with the identical normalized test case. -/
theorem validate_single_idempotent (data : List (String × Val)) (tc : TestCase)
    (h : validate_single_testcase data = ⟨true, [], [], some (.case tc)⟩) :
    validate_single_testcase (toData tc) = ⟨true, [], [], some (.case tc)⟩ := by
  have hcore : validateTestCaseCore data = .ok tc := by
    cases hc : validateTestCaseCore data with
    | ok tc2 =>
      rw [validate_single_eq_of_ok hc] at h
      simp only [ValidationResult.mk.injEq, Option.some.injEq, ValidatedData.case.injEq] at h
      rw [h.2.2.2]
    | error es =>
      rw [validate_single_eq_of_error hc] at h
      simp at h
  obtain ⟨ht1, ht2, ht3, hd1, hd2, hs1, hs2, hp⟩ := validateTestCaseCore_ok hcore
  have hforward : validateTestCaseCore (toData tc) = .ok tc := by
    unfold validateTestCaseCore
    rw [show (toData tc).lookup "title" = some (.str tc.title) from rfl,
      show (toData tc).lookup "description" = some (.str tc.description) from rfl,
      show (toData tc).lookup "steps" = some (.list (tc.steps.map
        (fun s => Val.dict [("action", .str s.action), ("expected", .str s.expected)]))) from rfl]
    have hT : validateStrField ["title"] (some 255) (some (.str tc.title)) = .ok tc.title := by
      have h0 : validateStrField ["title"] (some 255) (some (.str tc.title)) =
          .ok (pyStrip tc.title) :=
        validateStrField_str_eq_ok_some (show pyStrip tc.title ≠ "" by rw [ht2]; exact ht1) ht3
      rw [ht2] at h0
      exact h0
    have hD : validateStrField ["description"] Option.none (some (.str tc.description)) =
        .ok tc.description := by
      have h0 : validateStrField ["description"] Option.none (some (.str tc.description)) =
          .ok (pyStrip tc.description) :=
        validateStrField_str_eq_ok_none
          (show pyStrip tc.description ≠ "" by rw [hd2]; exact hd1)
      rw [hd2] at h0
      exact h0
    have hS : validateStepsField (some (.list (tc.steps.map
        (fun s => Val.dict [("action", .str s.action), ("expected", .str s.expected)])))) =
        .ok tc.steps := by
      have hmapne : tc.steps.map
          (fun s => Val.dict [("action", .str s.action), ("expected", .str s.expected)]) ≠ [] :=
        fun hc => hs1 (List.map_eq_nil_iff.1 hc)
      have hok : ∀ v ∈ tc.steps.map
          (fun s => Val.dict [("action", .str s.action), ("expected", .str s.expected)]),
          stepOk v := by
        intro v hv
        obtain ⟨s, hsmem, rfl⟩ := List.mem_map.1 hv
        obtain ⟨ha1, ha2, he1, he2⟩ := hs2 s hsmem
        exact ⟨s.action, s.expected, rfl, rfl, by rw [ha2]; exact ha1, by rw [he2]; exact he1⟩
      rw [validateStepsField_eq_ok hmapne hok, List.map_map]
      have hid : ∀ s ∈ tc.steps, (stepNorm ∘
          (fun s => Val.dict [("action", .str s.action), ("expected", .str s.expected)])) s
            = id s := by
        intro s hsmem
        obtain ⟨ha1, ha2, he1, he2⟩ := hs2 s hsmem
        show stepNorm (Val.dict [("action", .str s.action), ("expected", .str s.expected)]) = s
        rw [show stepNorm (Val.dict [("action", .str s.action), ("expected", .str s.expected)]) =
          (⟨pyStrip s.action, pyStrip s.expected⟩ : TestStep) from rfl, ha2, he2]
      rw [List.map_congr_left hid, List.map_id]
    have hP : validatePriorityField ((toData tc).lookup "priority") = .ok tc.priority := by
      rw [show (toData tc).lookup "priority" =
        some (match tc.priority with | some n => Val.int n | Option.none => Val.none) from rfl]
      rcases hp with hnone | ⟨n, hn, hn1, hn4⟩
      · rw [hnone]
        exact validatePriorityField_pynone_eq
      · rw [hn]
        exact validatePriorityField_int_eq_ok hn1 hn4
    exact combine4_eq_ok hT hD hS hP
  exact validate_single_eq_of_ok hforward

/-- C9 witness: re-validating the normalized form of the accepted
`Login Test` case reproduces it unchanged. -/
theorem validate_single_idempotent_witness :
    validate_single_testcase
      (toData ⟨"Login Test", "Verify login", [⟨"Open page", "Page loads"⟩], some 2⟩) =
      ⟨true, [], [],
        some (.case ⟨"Login Test", "Verify login", [⟨"Open page", "Page loads"⟩], some 2⟩)⟩ :=
  validate_single_idempotent
    [("title", .str "Login Test"), ("description", .str "Verify login"),
     ("steps", .list [.dict [("action", .str "Open page"), ("expected", .str "Page loads")]])]
    ⟨"Login Test", "Verify login", [⟨"Open page", "Page loads"⟩], some 2⟩ rfl

/-- C10 witness: a step whose expected text is whitespace-only is emitted as
an `ActionStep` child with empty expected payload, and the empty list is the
only input with empty output. -/
theorem format_steps_total_and_lenient_witness :
    formatStep 1 ⟨some " x ", some "  "⟩ = specChild 1 ⟨some " x ", some ""⟩ ∧
    (formatTestSteps [] = "" ↔ ([] : List StepInput) = []) := by
  obtain ⟨_, _, _, h4, _, h6⟩ :=
    format_steps_total_and_lenient ([] : List StepInput) 1 (some " x ") (some "  ")
  exact ⟨h4 (by decide), h6⟩

end TestcaseSchema
